import Mathlib

/-!
# Verification of the `try` error-handling package

A shallow embedding of `src/try.go` (package `try`, github.com/goldic/try).

Modelling choices:
* A Go `error` interface value is `Option GoErr`: `none` is the nil interface,
  `some e` a non-nil error.  `GoErr` captures the three error shapes the
  package manipulates: a plain error carrying a message (`base`, covering
  `errors.New` / `fmt.Errorf` without `%w`), the wrapper produced by
  `fmt.Errorf("%w\n\t%s:%d", err, file, line)` in `checkErr` (`wrap`), and the
  multi-error produced by `errors.Join` (`join`, holding the non-nil
  components).
* A panic payload (Go `any`) is `GoAny`: an error value, a string, or an
  integer; `fmt.Errorf("%v", x)` stringifies the non-error payloads.
* A computation that may unwind is `Except GoAny α`: `.ok v` is normal
  completion, `.error r` an in-flight panic with payload `r`.
* `runtime.Caller` is modelled by passing each function the call stack above
  it explicitly: `callers : List Loc`, innermost caller first, each entry the
  source location of the call in that frame.
-/

/-- A source location, as returned by `runtime.Caller` (file and line). -/
structure Loc where
  file : String
  line : Nat
deriving DecidableEq, Repr

/-- Non-nil Go error values, as constructed by package `try` and its
dependencies (`errors`, `fmt`). -/
inductive GoErr where
  /-- A plain error with a message (e.g. `errors.New`, `fmt.Errorf("%v", x)`). -/
  | base : String → GoErr
  /-- `fmt.Errorf("%w\n\t%s:%d", inner, file, line)`: wraps `inner`, its
  `Unwrap() error` returns `inner`. -/
  | wrap : GoErr → String → Nat → GoErr
  /-- `errors.Join` result: holds the non-nil component errors; its
  `Unwrap() []error` returns them. -/
  | join : List GoErr → GoErr

/-- A Go `any` panic payload: an error, a string, or an integer. -/
inductive GoAny where
  | err : GoErr → GoAny
  | str : String → GoAny
  | int : Int → GoAny

mutual
/-- Structural equality of error values, modelling Go interface comparison
`err == target` as used by `errors.Is`. -/
def GoErr.beq : GoErr → GoErr → Bool
  | .base s, .base t => s == t
  | .wrap e f l, .wrap e2 f2 l2 => GoErr.beq e e2 && f == f2 && l == l2
  | .join es, .join fs => GoErr.beqList es fs
  | _, _ => false

/-- Pointwise `GoErr.beq` on component lists. -/
def GoErr.beqList : List GoErr → List GoErr → Bool
  | [], [] => true
  | e :: es, f :: fs => GoErr.beq e f && GoErr.beqList es fs
  | _, _ => false
end

instance : BEq GoErr := ⟨GoErr.beq⟩

mutual
/-- The `Error()` message of an error value.  A `wrap` (from
`fmt.Errorf("%w\n\t%s:%d", ...)`) renders the inner message followed by
`"\n\t" ++ file ++ ":" ++ line`; a `join` renders its components separated by
`"\n"` (Go `joinError.Error`). -/
def GoErr.message : GoErr → String
  | .base s => s
  | .wrap e f l => e.message ++ "\n\t" ++ f ++ ":" ++ toString l
  | .join es => GoErr.messageList es

/-- Messages of a join's components separated by newlines. -/
def GoErr.messageList : List GoErr → String
  | [] => ""
  | [e] => e.message
  | e :: rest => e.message ++ "\n" ++ GoErr.messageList rest
end

/-- `errors.Unwrap`: returns the single wrapped error for a `%w` wrapper;
`base` has no `Unwrap`, and `joinError` only has `Unwrap() []error`, which
`errors.Unwrap` does not use, so both give `none`. -/
def errorsUnwrap : GoErr → Option GoErr
  | .wrap e _ _ => some e
  | _ => none

mutual
/-- `errors.Is(e, target)` for a non-nil comparable `target`: `e` matches
`target` directly or somewhere down its unwrap chain, descending through both
`Unwrap() error` (wrap) and `Unwrap() []error` (join). -/
def errorsIs : GoErr → GoErr → Bool
  | e, target =>
    GoErr.beq e target ||
      match e with
      | .base _ => false
      | .wrap inner _ _ => errorsIs inner target
      | .join es => errorsIsList es target

/-- `errors.Is` over a join's component list. -/
def errorsIsList : List GoErr → GoErr → Bool
  | [], _ => false
  | e :: rest, target => errorsIs e target || errorsIsList rest target
end

mutual
/-- The number of non-join failures reachable through nested joins: the count
of independently inspectable components of a combined error. -/
def componentCount : GoErr → Nat
  | .base _ => 1
  | .wrap _ _ _ => 1
  | .join es => componentCountList es

/-- Sum of component counts over a join's component list. -/
def componentCountList : List GoErr → Nat
  | [] => 0
  | e :: rest => componentCount e + componentCountList rest
end

/-- `toError` (src/try.go:121-126): a payload that is an error is returned as
is; any other payload is stringified via `fmt.Errorf("%v", err)`. -/
def toError : GoAny → GoErr
  | .err e => e
  | .str s => .base s
  | .int n => .base (toString n)

/-- `errors.Join(errs...)` from the Go standard library: nil when every
argument is nil, otherwise a `joinError` holding the non-nil arguments in
order. -/
def errorsJoin (errs : List (Option GoErr)) : Option GoErr :=
  match errs.filterMap id with
  | [] => none
  | ne => some (.join ne)

/-- `joinErrors` (src/try.go:128-133): `b` when `a` is nil, otherwise
`errors.Join(a, b)`. -/
def joinErrors (a b : Option GoErr) : Option GoErr :=
  match a with
  | none => b
  | some _ => errorsJoin [a, b]

/-! ## Propagation helpers

Each helper takes `callers : List Loc`, the call stack above its own frame,
innermost first: `callers[0]` is the source location at which the helper was
invoked.  When a helper's body calls `checkErr`, it pushes the location of
that internal call, so that seen from `checkErr` the stack reads
`[location inside the helper, helper call site, ...]`; `runtime.Caller(2)`
(skip 0 = `checkErr` itself, skip 1 = the helper, skip 2 = the helper's
caller) then resolves to index 1 of `checkErr`'s `callers` list.  When the
requested frame does not exist, `runtime.Caller` reports `ok = false` with
zero values, which `checkErr` ignores, so the location defaults to
`⟨"", 0⟩`. -/

/-- `runtime.Caller(2)` as observed inside `checkErr`, given the stack of
callers above `checkErr`. -/
def callerLoc (callers : List Loc) : Loc :=
  (callers.get? 1).getD ⟨"", 0⟩

/-- `checkErr` (src/try.go:135-140): nil error is a no-op; a non-nil error
triggers `panic(fmt.Errorf("%w\n\t%s:%d", err, file, line))` where file and
line come from `runtime.Caller(2)`. -/
def checkErr (callers : List Loc) (err : Option GoErr) : Except GoAny Unit :=
  match err with
  | none => .ok ()
  | some e =>
    let loc := callerLoc callers
    .error (.err (.wrap e loc.file loc.line))

/-- Location of the `checkErr(err)` call inside `OK` (src/try.go:13). -/
def okLoc : Loc := ⟨"try.go", 13⟩

/-- Location of the `checkErr(err)` call inside `Check` (src/try.go:18). -/
def checkLoc : Loc := ⟨"try.go", 18⟩

/-- Location of the `checkErr(err)` call inside `Val` (src/try.go:23). -/
def valLoc : Loc := ⟨"try.go", 23⟩

/-- Location of the `checkErr(err)` call inside `Val2` (src/try.go:29). -/
def val2Loc : Loc := ⟨"try.go", 29⟩

/-- Location of the `checkErr(err)` call inside `Val3` (src/try.go:35). -/
def val3Loc : Loc := ⟨"try.go", 35⟩

/-- Location of the `checkErr(toError(err))` call inside `Require`
(src/try.go:60). -/
def requireLoc : Loc := ⟨"try.go", 60⟩

/-- `OK` (src/try.go:12-14): panics when err is not nil. -/
def OK (callers : List Loc) (err : Option GoErr) : Except GoAny Unit :=
  checkErr (okLoc :: callers) err

/-- `Check` (src/try.go:17-19): panics when err is not nil. -/
def Check (callers : List Loc) (err : Option GoErr) : Except GoAny Unit :=
  checkErr (checkLoc :: callers) err

/-- `Val` (src/try.go:22-25): returns v or panics when err is not nil. -/
def Val {T : Type} (callers : List Loc) (v : T) (err : Option GoErr) :
    Except GoAny T := do
  checkErr (valLoc :: callers) err
  return v

/-- `Val2` (src/try.go:28-31): returns v1, v2 or panics when err is not
nil. -/
def Val2 {T1 T2 : Type} (callers : List Loc) (v1 : T1) (v2 : T2)
    (err : Option GoErr) : Except GoAny (T1 × T2) := do
  checkErr (val2Loc :: callers) err
  return (v1, v2)

/-- `Val3` (src/try.go:34-37): returns v1, v2, v3 or panics when err is not
nil. -/
def Val3 {T1 T2 T3 : Type} (callers : List Loc) (v1 : T1) (v2 : T2) (v3 : T3)
    (err : Option GoErr) : Except GoAny (T1 × T2 × T3) := do
  checkErr (val3Loc :: callers) err
  return (v1, v2, v3)

/-- `SafeVal` (src/try.go:40-43): returns v and ignores error; its body
never panics. -/
def SafeVal {T : Type} (v : T) (_err : Option GoErr) : Except GoAny T :=
  .ok v

/-- `SafeVal2` (src/try.go:46-49): returns v1, v2 and ignores error; its
body never panics. -/
def SafeVal2 {T1 T2 : Type} (v1 : T1) (v2 : T2) (_err : Option GoErr) :
    Except GoAny (T1 × T2) :=
  .ok (v1, v2)

/-- `SafeVal3` (src/try.go:52-55): returns v1, v2, v3 and ignores error; its
body never panics. -/
def SafeVal3 {T1 T2 T3 : Type} (v1 : T1) (v2 : T2) (v3 : T3)
    (_err : Option GoErr) : Except GoAny (T1 × T2 × T3) :=
  .ok (v1, v2, v3)

/-- `Require` (src/try.go:58-62): panics if statement is false, with the
payload normalized by `toError` and checked through `checkErr`. -/
def Require (callers : List Loc) (statement : Bool) (err : GoAny) :
    Except GoAny Unit :=
  if !statement then checkErr (requireLoc :: callers) (some (toError err))
  else .ok ()

/-! ## Recovery helpers

A deferred recovery helper observes the frame's exit state: `none` when the
function body completed normally (recover returns nil), `some r` when an
unwind with payload `r` is in flight.  `recover()` consumes the in-flight
unwind, so after any of these helpers runs, no unwind continues past the
frame; the `reraise` field records what, if anything, is still unwinding
when the helper returns. -/

/-- The observable outcome of a deferred `Catch` call. -/
structure CatchResult where
  /-- Contents of the destination slot after the call; `none` when the slot
  pointer was nil. -/
  slot : Option (Option GoErr)
  /-- Whether a `log.Printf` entry was emitted. -/
  logged : Bool
  /-- The unwind still in flight when `Catch` returns (an unwind the helper
  failed to suppress, or raised itself). -/
  reraise : Option GoAny

/-- `Catch` (src/try.go:72-80): deferred; recovers an in-flight unwind.  If
none is in flight it does nothing.  Otherwise, with a nil slot pointer it
logs the payload; with a non-nil slot pointer it stores
`joinErrors(*err, toError(r))` into the slot.  In every case `recover()` has
consumed the unwind and nothing is re-raised. -/
def Catch (slotPtr : Option (Option GoErr)) (inflight : Option GoAny) :
    CatchResult :=
  match inflight with
  | none => ⟨slotPtr, false, none⟩
  | some r =>
    match slotPtr with
    | none => ⟨none, true, none⟩
    | some cur => ⟨some (joinErrors cur (some (toError r))), false, none⟩

/-- The `defer try.Catch(&err)` pattern: runs a computation in a frame whose
deferred `Catch` targets an error slot initialized to `init`, and returns the
slot's final contents.  A body that completes normally leaves no unwind in
flight for the deferred `Catch`; a body that unwinds hands `Catch` its
payload. -/
def caughtInto {α : Type} (init : Option GoErr) (body : Except GoAny α) :
    Option GoErr :=
  match body with
  | .ok _ => ((Catch (some init) none).slot).getD none
  | .error r => ((Catch (some init) (some r)).slot).getD none

/-- `Call` (src/try.go:88-92): runs `fn` with `defer Catch(&err)` around it,
where the named return `err` starts at its zero value nil; returns the final
contents of `err`.  `fn`'s behaviour is represented by its outcome: `.ok ()`
for normal completion, `.error r` for an unwind with payload `r`. -/
def Call (fn : Except GoAny Unit) : Option GoErr :=
  caughtInto none fn

/-! ## Parallel join -/

/-- The panic payload of a finished goroutine, if it unwound. -/
def panicOf : Except GoAny Unit → Option GoAny
  | .ok _ => none
  | .error r => some r

/-- The error accumulation performed by the deferred recover block of each
goroutine spawned by `Async` (src/try.go:105-112): a goroutine that finished
normally leaves the accumulator alone; one that unwound with payload `r`
sets `err = joinErrors(err, toError(r))` under the mutex. -/
def asyncStep (acc : Option GoErr) (outcome : Option GoAny) : Option GoErr :=
  match outcome with
  | none => acc
  | some r => joinErrors acc (some (toError r))

/-- `Async` (src/try.go:100-119): spawns one goroutine per function, waits
on the `WaitGroup` barrier for all of them, and returns the accumulated
error.  Each goroutine's behaviour is its outcome (`.ok ()` or `.error r`);
the mutex serializes the accumulator updates, so the result is the fold of
`asyncStep` over the goroutines' outcomes in completion order, starting from
the zero value nil.  `completionOrder` lists all spawned goroutines in the
order in which their deferred recover blocks ran; the `wg.Wait()` barrier
means `Async` returns only once this list is complete, i.e. it is a
permutation of the list of functions passed in. -/
def Async (completionOrder : List (Except GoAny Unit)) : Option GoErr :=
  (completionOrder.map panicOf).foldl asyncStep none

/-! ## Derived notions used to state the properties -/

/-- Whether an error value is a combined (`errors.Join`) error. -/
def GoErr.isJoin : GoErr → Bool
  | .join _ => true
  | _ => false

/-- The `fmt` `%v` rendering of a panic payload: an error prints its
`Error()` message, a string prints itself, an integer its decimal form. -/
def GoAny.stringForm : GoAny → String
  | .err e => e.message
  | .str s => s
  | .int n => toString n

/-- `asyncStep` specialised to the goroutines that actually unwound: each
contributes `joinErrors(err, toError(r))` to the accumulator. -/
def joinStep (acc : Option GoErr) (r : GoAny) : Option GoErr :=
  joinErrors acc (some (toError r))

/-- The panic payloads of the goroutines that unwound, in the given order:
the captured failures of a parallel join. -/
def panics (fns : List (Except GoAny Unit)) : List GoAny :=
  (fns.map panicOf).filterMap id

/-! ## Basic lemmas -/

mutual
/-- `GoErr.beq` is reflexive. -/
theorem GoErr.beq_refl : ∀ a : GoErr, GoErr.beq a a = true
  | .base s => by simp [GoErr.beq]
  | .wrap e _ _ => by simp [GoErr.beq, GoErr.beq_refl e]
  | .join es => by simp [GoErr.beq]; exact GoErr.beqList_refl es

/-- `GoErr.beqList` is reflexive. -/
theorem GoErr.beqList_refl : ∀ as : List GoErr, GoErr.beqList as as = true
  | [] => rfl
  | e :: es => by simp [GoErr.beqList, GoErr.beq_refl e, GoErr.beqList_refl es]
end

/-- Every error matches itself under `errors.Is`. -/
theorem errorsIs_self (e : GoErr) : errorsIs e e = true := by
  rw [errorsIs.eq_def]
  simp [GoErr.beq_refl]

/-- The `%w` wrapper produced by `checkErr` keeps the wrapped error in the
`errors.Is` chain. -/
theorem errorsIs_wrap_inner (e : GoErr) (f : String) (l : Nat) :
    errorsIs (.wrap e f l) e = true := by
  rw [errorsIs.eq_def]
  simp [errorsIs_self]

/-- Component count of a two-element join. -/
theorem componentCount_join_pair (a b : GoErr) :
    componentCount (.join [a, b]) = componentCount a + componentCount b := by
  simp [componentCount, componentCountList]

/-- `errors.Is` searches both components of a two-element join: left. -/
theorem errorsIs_join_pair_left (a b t : GoErr) (h : errorsIs a t = true) :
    errorsIs (.join [a, b]) t = true := by
  rw [errorsIs.eq_def]
  simp [errorsIsList, h]

/-- `errors.Is` searches both components of a two-element join: right. -/
theorem errorsIs_join_pair_right (a b t : GoErr) (h : errorsIs b t = true) :
    errorsIs (.join [a, b]) t = true := by
  rw [errorsIs.eq_def]
  simp [errorsIsList, h]

/-- A payload that is not normalized to a combined error counts as a single
component. -/
theorem componentCount_of_not_join (e : GoErr) (h : e.isJoin = false) :
    componentCount e = 1 := by
  cases e <;> simp_all [GoErr.isJoin, componentCount]

/-- `fmt.Errorf("%v", x)` inside `toError` renders exactly the payload's
string form. -/
theorem toError_message (x : GoAny) : (toError x).message = x.stringForm := by
  cases x <;> rfl

/-- Goroutines that completed normally do not contribute to the `Async`
accumulator: the fold over all outcomes equals the fold over the panic
payloads alone. -/
theorem foldl_asyncStep_filterMap (ps : List (Option GoAny))
    (acc : Option GoErr) :
    ps.foldl asyncStep acc = (ps.filterMap id).foldl joinStep acc := by
  induction ps generalizing acc with
  | nil => rfl
  | cons p rest ih => cases p <;> simp [asyncStep, joinStep, ih]

/-- Folding `joinStep` over payloads `rs` from a non-nil accumulator stays
non-nil, adds one component per payload (counted through nested joins), and
keeps both the accumulator's chain and every payload's normalized error
reachable via `errors.Is`. -/
theorem foldl_joinStep_some (rs : List GoAny) (a : GoErr) :
    ∃ e, rs.foldl joinStep (some a) = some e ∧
      componentCount e =
        componentCount a + (rs.map fun r => componentCount (toError r)).sum ∧
      (∀ t, errorsIs a t = true → errorsIs e t = true) ∧
      (∀ r ∈ rs, errorsIs e (toError r) = true) := by
  induction rs generalizing a with
  | nil => exact ⟨a, rfl, by simp, fun _ h => h, by simp⟩
  | cons r rest ih =>
    obtain ⟨e, he, hc, hmono, hmem⟩ := ih (.join [a, toError r])
    refine ⟨e, ?_, ?_, ?_, ?_⟩
    · simpa [joinStep, joinErrors, errorsJoin] using he
    · rw [hc, componentCount_join_pair]
      simp [Nat.add_assoc]
    · exact fun t ht => hmono t (errorsIs_join_pair_left _ _ _ ht)
    · intro x hx
      rcases List.mem_cons.mp hx with hx | hx
      · subst hx
        exact hmono _ (errorsIs_join_pair_right _ _ _ (errorsIs_self _))
      · exact hmem x hx

/-! ## Claim theorems -/

/-- C5: for every input whose trailing error is nil, each checked
propagation helper (`Check`, `OK`, `Val`, `Val2`, `Val3`) is a no-op: the
passthrough value(s) are returned unchanged and no unwind occurs. -/
theorem nil_error_helpers_noop (callers : List Loc) {T1 T2 T3 : Type}
    (v1 : T1) (v2 : T2) (v3 : T3) :
    Check callers none = .ok () ∧
    OK callers none = .ok () ∧
    Val callers v1 none = .ok v1 ∧
    Val2 callers v1 v2 none = .ok (v1, v2) ∧
    Val3 callers v1 v2 v3 none = .ok (v1, v2, v3) :=
  ⟨rfl, rfl, rfl, rfl, rfl⟩

/-- C8: for every input, including a non-nil trailing error, `SafeVal`,
`SafeVal2` and `SafeVal3` return their result value(s) unchanged, discard
the error, and never unwind. -/
theorem safe_helpers_never_unwind {T1 T2 T3 : Type} (v1 : T1) (v2 : T2)
    (v3 : T3) (err : Option GoErr) :
    SafeVal v1 err = .ok v1 ∧
    SafeVal2 v1 v2 err = .ok (v1, v2) ∧
    SafeVal3 v1 v2 v3 err = .ok (v1, v2, v3) :=
  ⟨rfl, rfl, rfl⟩

/-- C10: `OK` and `Check` are extensionally equal: on every error input
(nil or non-nil) and every call stack they produce identical behaviour,
since both delegate to `checkErr` and the location `checkErr` annotates
with skips past their internal frames. -/
theorem ok_check_extensionally_equal (callers : List Loc)
    (err : Option GoErr) :
    OK callers err = Check callers err := by
  cases err <;> rfl

/-- C2: `Catch` with no unwind in flight is a no-op (slot and log
untouched); with an unwind in flight and a nil slot pointer it logs and
suppresses; and in every case in which it runs, nothing is re-raised. -/
theorem catch_noop_log_suppress (slotPtr : Option (Option GoErr))
    (r : GoAny) :
    Catch slotPtr none = ⟨slotPtr, false, none⟩ ∧
    Catch none (some r) = ⟨none, true, none⟩ ∧
    ∀ (p : Option (Option GoErr)) (inflight : Option GoAny),
      (Catch p inflight).reraise = none := by
  refine ⟨rfl, rfl, ?_⟩
  intro p inflight
  cases inflight with
  | none => rfl
  | some r2 => cases p <;> rfl

/-- C4 counterexample: merging the non-nil error `base "x"` with nil does
not yield that same error unchanged — `joinErrors` hands both arguments to
`errors.Join`, which wraps the single non-nil one in a fresh one-component
combined error. -/
theorem joinErrors_nonnil_nil_changes :
    joinErrors (some (.base "x")) none ≠ some (.base "x") := by
  simp [joinErrors, errorsJoin]

/-- C4 amended: if the pre-existing slot error is nil, the merge yields the
newly normalized error unchanged; if both are non-nil, it yields a combined
error containing both.  These are the only merges `Catch` performs, because
the newly normalized error `toError(r)` is never nil; the merge helper
applied to a non-nil error and nil — a case `Catch` never reaches — yields
a one-component combined error wrapping that error, not the error itself. -/
theorem catch_merge_spec (a b : GoErr) (cur : Option GoErr) (r : GoAny) :
    joinErrors none (some b) = some b ∧
    joinErrors (some a) (some b) = some (.join [a, b]) ∧
    joinErrors (some a) none = some (.join [a]) ∧
    (Catch (some cur) (some r)).slot =
      some (joinErrors cur (some (toError r))) ∧
    (Catch (some none) (some r)).slot = some (some (toError r)) :=
  ⟨rfl, rfl, rfl, rfl, rfl⟩

/-- C7: `Call fn` returns nil exactly when `fn` completes normally, and
returns the unwind payload normalized to an error — rather than letting the
unwind propagate — when `fn` unwinds. -/
theorem call_nil_iff_normal (r : GoAny) (fn : Except GoAny Unit) :
    Call (.ok ()) = none ∧
    Call (.error r) = some (toError r) ∧
    (Call fn = none ↔ fn = .ok ()) := by
  refine ⟨rfl, rfl, ?_⟩
  cases fn with
  | ok u => cases u; simp [Call, caughtInto, Catch]
  | error r2 => simp [Call, caughtInto, Catch, joinErrors]

/-- C6: `Require false x` unwinds with `x` normalized to an error (wrapped
with the call-site annotation), so catching into a slot yields an error
whose message contains the string form of `x`; `Require true x` never
unwinds. -/
theorem require_false_unwinds_true_noop (callers : List Loc) (x : GoAny) :
    (∃ f l, Require callers false x = .error (.err (.wrap (toError x) f l))) ∧
    (∃ w rest, caughtInto none (Require callers false x) = some w ∧
      GoErr.message w = GoAny.stringForm x ++ rest) ∧
    Require callers true x = .ok () := by
  refine ⟨⟨_, _, rfl⟩,
    ⟨.wrap (toError x) (callerLoc (requireLoc :: callers)).file
        (callerLoc (requireLoc :: callers)).line,
      "\n\t" ++ (callerLoc (requireLoc :: callers)).file ++ ":" ++
        toString (callerLoc (requireLoc :: callers)).line, rfl, ?_⟩, rfl⟩
  simp [GoErr.message, toError_message, String.append_assoc]

/-- C1: for every non-nil error `e`, unwinding through any propagation
helper (`Check`, `OK`, `Val`, `Val2`, `Val3`) and intercepting the unwind
with `Catch` into a non-nil slot that initially holds nil yields a slot
value whose `errors.Is` chain contains `e`. -/
theorem propagate_catch_chain_contains (e : GoErr) (callers : List Loc)
    {T1 T2 T3 : Type} (v1 : T1) (v2 : T2) (v3 : T3) :
    (∃ w, caughtInto none (Check callers (some e)) = some w ∧
      errorsIs w e = true) ∧
    (∃ w, caughtInto none (OK callers (some e)) = some w ∧
      errorsIs w e = true) ∧
    (∃ w, caughtInto none (Val callers v1 (some e)) = some w ∧
      errorsIs w e = true) ∧
    (∃ w, caughtInto none (Val2 callers v1 v2 (some e)) = some w ∧
      errorsIs w e = true) ∧
    (∃ w, caughtInto none (Val3 callers v1 v2 v3 (some e)) = some w ∧
      errorsIs w e = true) :=
  ⟨⟨_, rfl, errorsIs_wrap_inner e _ _⟩,
   ⟨_, rfl, errorsIs_wrap_inner e _ _⟩,
   ⟨_, rfl, errorsIs_wrap_inner e _ _⟩,
   ⟨_, rfl, errorsIs_wrap_inner e _ _⟩,
   ⟨_, rfl, errorsIs_wrap_inner e _ _⟩⟩

/-- C9: on every unwind path of a propagation helper invoked from call site
`c` (the first frame above the helper, i.e. two frames above `checkErr`),
the panic payload is the original error wrapped with `c`'s file and line —
not with the helper's own internal location — the location is appended to
the message as context, and the original error is recovered by
`errors.Unwrap`. -/
theorem unwind_payload_annotated (e : GoErr) (c : Loc) (rest : List Loc)
    {T1 T2 T3 : Type} (v1 : T1) (v2 : T2) (v3 : T3) :
    Check (c :: rest) (some e) = .error (.err (.wrap e c.file c.line)) ∧
    OK (c :: rest) (some e) = .error (.err (.wrap e c.file c.line)) ∧
    Val (c :: rest) v1 (some e) = .error (.err (.wrap e c.file c.line)) ∧
    Val2 (c :: rest) v1 v2 (some e) =
      .error (.err (.wrap e c.file c.line)) ∧
    Val3 (c :: rest) v1 v2 v3 (some e) =
      .error (.err (.wrap e c.file c.line)) ∧
    Require (c :: rest) false (.err e) =
      .error (.err (.wrap e c.file c.line)) ∧
    errorsUnwrap (.wrap e c.file c.line) = some e ∧
    GoErr.message (.wrap e c.file c.line) =
      GoErr.message e ++ "\n\t" ++ c.file ++ ":" ++ toString c.line :=
  ⟨rfl, rfl, rfl, rfl, rfl, rfl, rfl, rfl⟩

/-- Payloads that each normalize to a non-combined error each contribute
exactly one component. -/
theorem sum_componentCounts_of_atomic (rs : List GoAny)
    (h : ∀ r ∈ rs, (toError r).isJoin = false) :
    (rs.map fun r => componentCount (toError r)).sum = rs.length := by
  induction rs with
  | nil => rfl
  | cons r rest ih =>
    simp [componentCount_of_not_join _ (h r (by simp)),
      ih (fun x hx => h x (by simp [hx])), Nat.add_comm]

/-- C3: `Async` with zero functions returns nil; with `N` functions of
which exactly `K` unwind, it returns nil when `K = 0` and otherwise a
non-nil combined error with exactly `K` components, each captured failure
remaining inspectable via `errors.Is`; the caller resumes only after all
`N` goroutines have completed, i.e. the completion order `Async` folds
over is a permutation of the whole function list. -/
theorem async_parallel_join_spec
    (fns completionOrder : List (Except GoAny Unit))
    (hperm : completionOrder.Perm fns)
    (hatomic : ∀ r ∈ panics fns, (toError r).isJoin = false) :
    completionOrder.length = fns.length ∧
    (fns = [] → Async completionOrder = none) ∧
    (panics fns = [] → Async completionOrder = none) ∧
    (panics fns ≠ [] →
      ∃ e, Async completionOrder = some e ∧
        componentCount e = (panics fns).length ∧
        ∀ r ∈ panics fns, errorsIs e (toError r) = true) := by
  have hp : (completionOrder.map panicOf).Perm (fns.map panicOf) :=
    hperm.map panicOf
  have hrs : (panics completionOrder).Perm (panics fns) := hp.filterMap id
  have hasync : Async completionOrder =
      (panics completionOrder).foldl joinStep none :=
    foldl_asyncStep_filterMap _ _
  refine ⟨hperm.length_eq, ?_, ?_, ?_⟩
  · intro h
    subst h
    rw [hasync, List.Perm.eq_nil hrs]
    rfl
  · intro h
    rw [h] at hrs
    rw [hasync, List.Perm.eq_nil hrs]
    rfl
  · intro h
    obtain ⟨r0, rest, hpc⟩ : ∃ r0 rest,
        panics completionOrder = r0 :: rest := by
      cases hpceq : panics completionOrder with
      | nil =>
        rw [hpceq] at hrs
        exact absurd (List.Perm.eq_nil hrs.symm) h
      | cons r0 rest => exact ⟨r0, rest, rfl⟩
    obtain ⟨e, he, hc, hmono, hmem⟩ := foldl_joinStep_some rest (toError r0)
    have hatomicCo : ∀ r ∈ panics completionOrder,
        (toError r).isJoin = false :=
      fun r hr => hatomic r (hrs.mem_iff.mp hr)
    refine ⟨e, ?_, ?_, ?_⟩
    · rw [hasync, hpc]
      simpa [joinStep, joinErrors] using he
    · rw [hc, componentCount_of_not_join _ (hatomicCo r0 (by simp [hpc])),
        sum_componentCounts_of_atomic rest
          (fun x hx => hatomicCo x (by simp [hpc, hx]))]
      rw [← hrs.length_eq, hpc]
      simp [Nat.add_comm]
    · intro r hr
      have hrpc : r ∈ panics completionOrder := hrs.mem_iff.mpr hr
      rw [hpc] at hrpc
      rcases List.mem_cons.mp hrpc with hr0 | hrest
      · subst hr0
        exact hmono _ (errorsIs_self _)
      · exact hmem r hrest

/-- Witness for C3: `Async(f1, f2, f3)` where `f1` panics with "boom1",
`f2` succeeds and `f3` panics with "boom2" yields a combined error with
exactly two components, both still inspectable. -/
theorem async_parallel_join_spec_witness :
    ∃ e, Async [.error (.str "boom1"), .ok (), .error (.str "boom2")]
        = some e ∧
      componentCount e = 2 ∧
      ∀ r ∈ panics [.error (.str "boom1"), .ok (), .error (.str "boom2")],
        errorsIs e (toError r) = true := by
  have h := async_parallel_join_spec
      [.error (.str "boom1"), .ok (), .error (.str "boom2")]
      [.error (.str "boom1"), .ok (), .error (.str "boom2")]
      (List.Perm.refl _)
      (by
        intro r hr
        simp [panics, panicOf] at hr
        rcases hr with rfl | rfl <;> rfl)
  obtain ⟨-, -, -, h4⟩ := h
  obtain ⟨e, he, hc, hm⟩ := h4 (by simp [panics, panicOf])
  refine ⟨e, he, ?_, hm⟩
  rw [hc]
  simp [panics, panicOf]
